import Mathlib

/-!
Verification of the content aggregation and merge pipeline of the Yoga
repository (scripts/update-guide-content.js and the pose categorizer of
src/js/video-player.js), shallowly embedded in Lean.

The first part of the file translates the relevant JavaScript into Lean
definitions; the second part states and proves the properties.
-/

namespace Yoga

/-- A scraped item for the types section: one record from one source
(scripts/update-guide-content.js, generateYogaTypesContent input shape). -/
structure SourceItem where
  name : String
  description : String
  benefits : List String
  suitable_for : List String
deriving DecidableEq

/-- A merged record in the `yogaTypes` accumulator. -/
structure MergedType where
  name : String
  description : String
  benefits : List String
  suitable_for : List String
  source : String
deriving DecidableEq

/-- One entry of the scraped `types.json`: a source name and its data array. -/
structure TypesSource where
  source : String
  data : List SourceItem
deriving DecidableEq

/-- JS `String.prototype.toLowerCase` (the scraped names are ASCII):
lowercase every character. -/
def lowerStr (s : String) : String :=
  ⟨s.data.map Char.toLower⟩

/-- JS `Set.add` semantics on an insertion-ordered list: append if absent. -/
def insertUniq (l : List String) (x : String) : List String :=
  if x ∈ l then l else l ++ [x]

/-- Adding every element of `xs` to the insertion-ordered set `l`
(the JS `xs.forEach(x =&gt; set.add(x))` loop). -/
def setAdd (l : List String) (xs : List String) : List String :=
  xs.foldl insertUniq l

/-- JS `Array.from(new Set(xs))`: deduplicate keeping first occurrences. -/
def dedupFirst (xs : List String) : List String :=
  setAdd [] xs

/-- JS source-attribution update: filter out falsy entries and join with a
comma and a space. -/
def joinSources (a b : String) : String :=
  if a = "" then (if b = "" then "" else b)
  else if b = "" then a else a ++ ", " ++ b

/-- The merge branch of generateYogaTypesContent (lines 110-134): longer
description wins (the incoming one must be truthy, i.e. nonempty), benefits
and suitable_for become `Array.from(new Set(existing).add*(incoming))`, and
the source attribution is rejoined with the incoming source name. -/
def mergeInto (existing : MergedType) (src : String) (item : SourceItem) : MergedType :=
  { name := existing.name,
    description :=
      if item.description ≠ "" ∧ existing.description.length < item.description.length
      then item.description else existing.description,
    benefits := setAdd (dedupFirst existing.benefits) item.benefits,
    suitable_for := setAdd (dedupFirst existing.suitable_for) item.suitable_for,
    source := joinSources existing.source src }

/-- Processing one incoming item against the accumulator: the JS
`findIndex(t =&gt; t.name.toLowerCase() === item.name.toLowerCase())` scan,
pushing a fresh record on miss and updating the first match in place. -/
def mergeItem (acc : List MergedType) (src : String) (item : SourceItem) : List MergedType :=
  match acc with
  | [] => [{ name := item.name, description := item.description,
             benefits := item.benefits, suitable_for := item.suitable_for,
             source := src }]
  | t :: ts =>
      if lowerStr t.name == lowerStr item.name
      then mergeInto t src item :: ts
      else t :: mergeItem ts src item

/-- Folding the data array of one source into the accumulator. -/
def mergeSource (acc : List MergedType) (s : TypesSource) : List MergedType :=
  s.data.foldl (fun a item => mergeItem a s.source item) acc

/-- The whole combine loop of generateYogaTypesContent (lines 96-137). -/
def mergeAllTypes (sources : List TypesSource) : List MergedType :=
  sources.foldl mergeSource []

/-- The deduplication key of a merged record: its lowercased name. -/
def typeKey (t : MergedType) : String := lowerStr t.name

/-- The deduplication key of an incoming item: its lowercased name. -/
def itemKey (i : SourceItem) : String := lowerStr i.name

/-- The non-attribution fields of a merged record. -/
def coreFields (t : MergedType) : String × String × List String × List String :=
  (t.name, t.description, t.benefits, t.suitable_for)

/-- C1 and C2 input: a merged record already attributed to source A. -/
def c1Existing : MergedType :=
  { name := "Hatha", description := "d", benefits := [], suitable_for := [], source := "A" }

/-- C1 input: an incoming record from the same source A. -/
def c1Item : SourceItem :=
  { name := "hatha", description := "d", benefits := [], suitable_for := [] }

/-- C2 input. -/
def c2Item : SourceItem :=
  { name := "Vinyasa", description := "d", benefits := [], suitable_for := [] }

/-- The shape of one scraped `benefits.json` entry: arrays keyed
physical / mental / general. -/
structure BenefitsData where
  physical : List String
  mental : List String
  general : List String
deriving DecidableEq

/-- One entry of the scraped benefits file: source name and data. -/
structure BenefitsSource where
  source : String
  data : BenefitsData
deriving DecidableEq

/-- The three output sets of generateYogaBenefitsContent; the `general`
input key feeds the `lifestyle` set. -/
structure BenefitsBuckets where
  physical : List String
  mental : List String
  lifestyle : List String
deriving DecidableEq

/-- The combine loop of generateYogaBenefitsContent (lines 302-316). -/
def collectBenefits (sources : List BenefitsSource) : BenefitsBuckets :=
  sources.foldl
    (fun acc s =>
      { physical := setAdd acc.physical s.data.physical,
        mental := setAdd acc.mental s.data.mental,
        lifestyle := setAdd acc.lifestyle s.data.general })
    { physical := [], mental := [], lifestyle := [] }

/-- The static benefit placeholder table (lines 327-346). -/
def benefitPlaceholders (category : String) : List String :=
  if category = "physical" then
    ["Improved flexibility and range of motion in joints.",
     "Increased muscle strength and tone.",
     "Better posture and body alignment.",
     "Enhanced balance and stability."]
  else if category = "mental" then
    ["Reduced stress and anxiety levels.",
     "Improved focus and concentration.",
     "Enhanced mood and emotional regulation.",
     "Better sleep quality and reduced insomnia."]
  else if category = "lifestyle" then
    ["Healthier habits and mindful eating.",
     "Better energy management throughout the day.",
     "Improved breathing patterns and lung function.",
     "Enhanced body awareness and mindfulness."]
  else []

/-- Selecting `benefits[category]`. -/
def benefitBucket (b : BenefitsBuckets) (category : String) : List String :=
  if category = "physical" then b.physical
  else if category = "mental" then b.mental
  else if category = "lifestyle" then b.lifestyle
  else []

/-- The backfill loop `while (items.length &lt; minCount)
items.push(placeholders[category][items.length])`. -/
def padLoop (table : List String) (minCount : Nat) (l : List String) : List String :=
  if l.length < minCount then padLoop table minCount (l ++ [table.getD l.length ""]) else l
termination_by minCount - l.length
decreasing_by
  simp only [List.length_append, List.length_cons, List.length_nil]
  omega

/-- The items of one rendered benefits section: up to 4 collected benefits,
backfilled from the placeholder table. -/
def benefitsItems (sources : List BenefitsSource) (category : String) : List String :=
  padLoop (benefitPlaceholders category) 4
    ((benefitBucket (collectBenefits sources) category).take 4)

/-- The shape of one scraped `tips.json` entry. -/
structure TipsData where
  beginners : List String
  practice : List String
  props : List String
deriving DecidableEq

/-- One entry of the scraped tips file. -/
structure TipsSource where
  source : String
  data : TipsData
deriving DecidableEq

/-- The three output sets of generateYogaTipsContent; the `practice` input
key feeds the `mindful` set. -/
structure TipsBuckets where
  beginners : List String
  mindful : List String
  props : List String
deriving DecidableEq

/-- The combine loop of generateYogaTipsContent (lines 384-398). -/
def collectTips (sources : List TipsSource) : TipsBuckets :=
  sources.foldl
    (fun acc s =>
      { beginners := setAdd acc.beginners s.data.beginners,
        mindful := setAdd acc.mindful s.data.practice,
        props := setAdd acc.props s.data.props })
    { beginners := [], mindful := [], props := [] }

/-- The static tip placeholder table (lines 413-429). -/
def tipPlaceholders (category : String) : List String :=
  if category = "beginners" then
    ["Start with beginner-friendly classes to learn proper alignment.",
     "Don" ++ (Char.ofNat 39).toString ++
       "t push beyond your comfort zone; listen to your body.",
     "Consistency is more important than intensity; practice regularly."]
  else if category = "mindful" then
    ["Focus on your breath throughout your practice.",
     "Set an intention at the beginning of each session.",
     "Stay present by continually bringing your attention back to your mat."]
  else if category = "props" then
    ["Yoga blocks help bring the floor closer in forward folds.",
     "Straps extend your reach in poses where flexibility is limited.",
     "A dedicated yoga space helps establish a consistent practice routine."]
  else []

/-- Selecting `tips[category]`. -/
def tipBucket (b : TipsBuckets) (category : String) : List String :=
  if category = "beginners" then b.beginners
  else if category = "mindful" then b.mindful
  else if category = "props" then b.props
  else []

/-- The items of one rendered tips section: up to 3 collected tips,
backfilled from the placeholder table. -/
def tipsItems (sources : List TipsSource) (category : String) : List String :=
  padLoop (tipPlaceholders category) 3
    ((tipBucket (collectTips sources) category).take 3)

/-- The per-category pose placeholder selection of generateYogaPosesContent
(lines 255-271): one fixed placeholder pose per category. -/
def posePlaceholder (category : String) : String × String :=
  if category = "standing" then
    ("Mountain Pose", "A foundational standing pose that teaches proper alignment.")
  else if category = "seated" then
    ("Easy Pose", "A comfortable seated position for meditation and breathing.")
  else if category = "backbends" then
    ("Cobra Pose", "A gentle backbend that strengthens the spine and opens the chest.")
  else ("Downward-Facing Dog", "An inversion that stretches the entire back of the body.")

/-- The pose backfill loop `while (topPoses.length &lt; 3)
topPoses.push(placeholder)`. -/
def posePadLoop (ph : String × String) (l : List (String × String)) : List (String × String) :=
  if l.length < 3 then posePadLoop ph (l ++ [ph]) else l
termination_by 3 - l.length
decreasing_by
  simp only [List.length_append, List.length_cons, List.length_nil]
  omega

/-- The items of one rendered pose category: `poses.slice(0, 3)` backfilled
with the category placeholder. -/
def poseItems (poses : List (String × String)) (category : String) : List (String × String) :=
  posePadLoop (posePlaceholder category) (poses.take 3)

/-- One global replace of a single character by a replacement string
(JS `str.replace(/c/g, rep)`). -/
def replaceChar (t : Char) (rep : List Char) : List Char → List Char
  | [] => []
  | c :: cs => (if c = t then rep else [c]) ++ replaceChar t rep cs

/-- The five chained replaces of escapeHtml (lines 558-565), on the
character list: ampersand first, then the four bracket and quote characters. -/
def escapeHtmlChars (l : List Char) : List Char :=
  replaceChar (Char.ofNat 39) "&#039;".data
    (replaceChar '"' "&quot;".data
      (replaceChar '>' "&gt;".data
        (replaceChar '<' "&lt;".data
          (replaceChar '&' "&amp;".data l))))

/-- escapeHtml at the String level. -/
def escapeHtml (s : String) : String := ⟨escapeHtmlChars s.data⟩

/-- Specification-side single-pass character escape: each of the five HTML
special characters maps to its entity, everything else is untouched. Used to
compare against the chained-replace implementation. -/
def escChar (c : Char) : List Char :=
  if c = '&' then "&amp;".data
  else if c = '<' then "&lt;".data
  else if c = '>' then "&gt;".data
  else if c = '"' then "&quot;".data
  else if c = Char.ofNat 39 then "&#039;".data
  else [c]

/-- The fixed list of standard yoga types rendered by
generateYogaTypesContent (line 140). -/
def standardTypes : List String := ["Vinyasa", "Hatha", "Yin", "Power", "Restorative"]

/-- The fallback record used when no merged record matches a standard type
name (lines 143-148). -/
def defaultTypeRecord (n : String) : MergedType :=
  { name := n, description := n ++ " yoga is a popular style with many benefits.",
    benefits := [], suitable_for := [], source := "" }

/-- The `t.name.toLowerCase() === typeName.toLowerCase()` test of line 143. -/
def typeKeyMatch (n : String) (t : MergedType) : Bool := lowerStr t.name == lowerStr n

/-- The lookup `yogaTypes.find(...) || defaultRecord` (lines 143-148). -/
def selectType (sources : List TypesSource) (n : String) : MergedType :=
  ((mergeAllTypes sources).find? (typeKeyMatch n)).getD (defaultTypeRecord n)

/-- The displayed text of one conditional type block (lines 150-169):
overview paragraph, first benefit or fallback, first suitable_for or
fallback. -/
structure TypeBlock where
  name : String
  overview : String
  benefitText : String
  suitableText : String
deriving DecidableEq

/-- Rendering one standard type block from the chosen record. -/
def renderTypeBlock (n : String) (t : MergedType) : TypeBlock :=
  { name := n,
    overview := escapeHtml t.description,
    benefitText :=
      match t.benefits with
      | [] => n ++ " yoga offers numerous physical and mental benefits."
      | b :: _ => escapeHtml b,
    suitableText :=
      match t.suitable_for with
      | [] => n ++ " yoga can be adapted for practitioners of various levels."
      | x :: _ => escapeHtml x }

/-- The rendering loop of generateYogaTypesContent (lines 142-170): one
block per standard type name, in the fixed order. -/
def renderTypes (sources : List TypesSource) : List TypeBlock :=
  standardTypes.map fun n => renderTypeBlock n (selectType sources n)

/-- A scraped pose record (generateYogaPosesContent input shape). -/
structure PoseItem where
  name : String
  description : String
  image_url : String
  category : String
deriving DecidableEq

/-- One entry of the scraped `poses.json`. -/
structure PosesSource where
  source : String
  data : List PoseItem
deriving DecidableEq

/-- A merged pose record in a category bucket. -/
structure MergedPose where
  name : String
  description : String
  image_url : String
  source : String
deriving DecidableEq

/-- The pose merge branch (lines 207-221): longer truthy description wins,
the image URL is taken only when none is held yet, and the source
attribution is rejoined. -/
def mergePoseInto (existing : MergedPose) (src : String) (p : PoseItem) : MergedPose :=
  { name := existing.name,
    description :=
      if p.description ≠ "" ∧ existing.description.length < p.description.length
      then p.description else existing.description,
    image_url :=
      if p.image_url ≠ "" ∧ existing.image_url = "" then p.image_url
      else existing.image_url,
    source := joinSources existing.source src }

/-- The per-bucket findIndex scan for poses (lines 197-222). -/
def mergePoseItem (acc : List MergedPose) (src : String) (p : PoseItem) : List MergedPose :=
  match acc with
  | [] => [{ name := p.name, description := p.description, image_url := p.image_url,
             source := src }]
  | t :: ts =>
      if lowerStr t.name == lowerStr p.name
      then mergePoseInto t src p :: ts
      else t :: mergePoseItem ts src p

/-- The four tracked pose category buckets (lines 181-186). -/
structure PoseBuckets where
  standing : List MergedPose
  seated : List MergedPose
  backbends : List MergedPose
  inversions : List MergedPose
deriving DecidableEq

/-- The category fallback of line 192: an empty (falsy) category string
becomes the untracked default category. -/
def poseCategoryOf (p : PoseItem) : String :=
  if p.category = "" then "other" else p.category

/-- Routing one pose into its bucket when that bucket is tracked
(lines 192-223); untracked categories are dropped. -/
def addPose (b : PoseBuckets) (src : String) (p : PoseItem) : PoseBuckets :=
  if poseCategoryOf p = "standing" then
    { b with standing := mergePoseItem b.standing src p }
  else if poseCategoryOf p = "seated" then
    { b with seated := mergePoseItem b.seated src p }
  else if poseCategoryOf p = "backbends" then
    { b with backbends := mergePoseItem b.backbends src p }
  else if poseCategoryOf p = "inversions" then
    { b with inversions := mergePoseItem b.inversions src p }
  else b

/-- The combine loop of generateYogaPosesContent (lines 189-226). -/
def collectPoses (sources : List PosesSource) : PoseBuckets :=
  sources.foldl (fun b s => s.data.foldl (fun acc p => addPose acc s.source p) b)
    { standing := [], seated := [], backbends := [], inversions := [] }

/-- Selecting `posesByCategory[category]`. -/
def poseBucket (b : PoseBuckets) (category : String) : List MergedPose :=
  if category = "standing" then b.standing
  else if category = "seated" then b.seated
  else if category = "backbends" then b.backbends
  else if category = "inversions" then b.inversions
  else []

/-- The rendered pose sections (lines 229-284): per category, the padded
top three poses with name and description escaped. -/
def posesSections (sources : List PosesSource) : List (String × List (String × String)) :=
  ["standing", "seated", "backbends", "inversions"].map fun c =>
    (c, (poseItems ((poseBucket (collectPoses sources) c).map fun m =>
          (m.name, m.description)) c).map fun pr => (escapeHtml pr.1, escapeHtml pr.2))

/-- The rendered benefits sections (lines 319-366), labeled by category. -/
def benefitsSections (sources : List BenefitsSource) : List (String × List String) :=
  ["physical", "mental", "lifestyle"].map fun c => (c, benefitsItems sources c)

/-- The rendered tips sections (lines 401-449), labeled by category. -/
def tipsSections (sources : List TipsSource) : List (String × List String) :=
  ["beginners", "mindful", "props"].map fun c => (c, tipsItems sources c)

/-- All scraped data held in memory by updateGuideContent. -/
structure ScrapedData where
  types : List TypesSource
  poses : List PosesSource
  benefits : List BenefitsSource
  tips : List TipsSource
deriving DecidableEq

/-- The structured output of one generated section. -/
inductive SectionOutput where
  | types : List TypeBlock → SectionOutput
  | poses : List (String × List (String × String)) → SectionOutput
  | benefits : List (String × List String) → SectionOutput
  | tips : List (String × List String) → SectionOutput
deriving DecidableEq

/-- The configured section list (line 19). -/
def sectionNames : List String := ["types", "poses", "benefits", "tips"]

/-- generateSectionContent (lines 73-88): dispatch on the section name,
throwing (here: returning an error value) on an unknown section. -/
def generateSectionContent (sd : ScrapedData) (sec : String) : Except String SectionOutput :=
  if sec = "types" then .ok (.types (renderTypes sd.types))
  else if sec = "poses" then .ok (.poses (posesSections sd.poses))
  else if sec = "benefits" then .ok (.benefits (benefitsSections sd.benefits))
  else if sec = "tips" then .ok (.tips (tipsSections sd.tips))
  else .error ("Unknown section: " ++ sec)

/-- The `scrapedData[sec] &amp;&amp; scrapedData[sec].length &gt; 0` guard of
line 52; absent keys are falsy. -/
def sectionHasData (sd : ScrapedData) (sec : String) : Bool :=
  if sec = "types" then !sd.types.isEmpty
  else if sec = "poses" then !sd.poses.isEmpty
  else if sec = "benefits" then !sd.benefits.isEmpty
  else if sec = "tips" then !sd.tips.isEmpty
  else false

/-- The generation loop of updateGuideContent (lines 51-64): each section is
generated inside its own try/catch, an error is logged (here: `none`) and
the loop continues with the remaining sections. -/
def updateRun (sd : ScrapedData) (secs : List String) : List (String × Option SectionOutput) :=
  secs.map fun sec =>
    (sec, if sectionHasData sd sec then (generateSectionContent sd sec).toOption else none)

/-- Does `needle` start `hay`? -/
def leadChars : List Char → List Char → Bool
  | [], _ => true
  | _ :: _, [] => false
  | a :: as, b :: bs => a == b && leadChars as bs

/-- Does `needle` occur contiguously in `hay`? -/
def hasSubChars (needle : List Char) : List Char → Bool
  | [] => leadChars needle []
  | b :: bs => leadChars needle (b :: bs) || hasSubChars needle bs

/-- Case-insensitive containment of a lowercase literal pattern, the model
of the JS `text.match(/.../i)` alternations of literal substrings. -/
def containsCI (hay pat : String) : Bool := hasSubChars pat.data (lowerStr hay).data

/-- Does the text match any literal of the alternation? -/
def matchesAny (hay : String) (pats : List String) : Bool :=
  pats.any fun p => containsCI hay p

/-- The standing-rule title keywords (video-player.js line 649). -/
def standingTitleKeys : List String :=
  ["mountain", "warrior", "triangle", "chair", "tree", "eagle", "goddess",
   "extended", "standing"]

/-- The standing-rule description keywords (line 650). -/
def standingDescKeys : List String :=
  ["standing pose", "standing position", "stand on", "standing with"]

/-- The seated-rule title keywords (line 655). -/
def seatedTitleKeys : List String :=
  ["seated", "sitting", "lotus", "sukhasana", "butterfly", "hero", "cobbler",
   "staff", "dandasana"]

/-- The seated-rule description keywords (line 656). -/
def seatedDescKeys : List String :=
  ["seated pose", "sitting pose", "seat on", "sit with"]

/-- The backbends-rule title keywords (line 661). -/
def backbendTitleKeys : List String :=
  ["backbend", "cobra", "up-dog", "upward dog", "upward-facing", "camel",
   "bridge", "wheel", "bow", "locust"]

/-- The backbends-rule description keywords (line 662). -/
def backbendDescKeys : List String :=
  ["backbend", "bend backward", "arch your back", "bend back"]

/-- The inversions-rule title keywords (line 667). -/
def inversionTitleKeys : List String :=
  ["inversion", "headstand", "handstand", "shoulder stand", "forearm stand",
   "plow", "dolphin", "downward dog", "downward-facing"]

/-- The inversions-rule description keywords (line 668). -/
def inversionDescKeys : List String :=
  ["inversion", "upside down", "feet above", "head below"]

/-- determinePoseCategory (video-player.js lines 646-675): the four keyword
rules tried in order on title and description, defaulting to "other". -/
def determinePoseCategory (title description : String) : String :=
  if matchesAny title standingTitleKeys || matchesAny description standingDescKeys then
    "standing"
  else if matchesAny title seatedTitleKeys || matchesAny description seatedDescKeys then
    "seated"
  else if matchesAny title backbendTitleKeys || matchesAny description backbendDescKeys then
    "backbends"
  else if matchesAny title inversionTitleKeys || matchesAny description inversionDescKeys then
    "inversions"
  else "other"

/-- Specification-side rule table: category names paired with their match
predicates, in source order. -/
def poseRules : List (String × (String → String → Bool)) :=
  [("standing", fun t d => matchesAny t standingTitleKeys || matchesAny d standingDescKeys),
   ("seated", fun t d => matchesAny t seatedTitleKeys || matchesAny d seatedDescKeys),
   ("backbends", fun t d => matchesAny t backbendTitleKeys || matchesAny d backbendDescKeys),
   ("inversions", fun t d => matchesAny t inversionTitleKeys || matchesAny d inversionDescKeys)]

/-- Specification-side categorizer: the category of the first matching rule,
"other" when none matches. -/
def firstMatchCategory (title description : String) : String :=
  match poseRules.find? fun r => r.2 title description with
  | some r => r.1
  | none => "other"

/-! ## Properties -/

theorem mem_insertUniq_self (l : List String) (x : String) : x ∈ insertUniq l x := by
  unfold insertUniq
  split
  · assumption
  · simp

theorem mem_insertUniq_of_mem {l : List String} {y : String} (x : String) (h : y ∈ l) :
    y ∈ insertUniq l x := by
  unfold insertUniq
  split
  · exact h
  · simp [h]

theorem insertUniq_eq_of_mem {l : List String} {x : String} (h : x ∈ l) :
    insertUniq l x = l := by
  simp [insertUniq, h]

theorem insertUniq_cons_of_ne {l : List String} {a x : String} (h : x ≠ a) :
    insertUniq (a :: l) x = a :: insertUniq l x := by
  unfold insertUniq
  by_cases hm : x ∈ l <;> simp [hm, h]

theorem mem_insertUniq_iff {l : List String} {x y : String} :
    y ∈ insertUniq l x ↔ y ∈ l ∨ y = x := by
  unfold insertUniq
  split
  · rename_i h
    constructor
    · exact Or.inl
    · rintro (hy | rfl)
      · exact hy
      · exact h
  · simp

theorem setAdd_cons (l : List String) (a : String) (xs : List String) :
    setAdd l (a :: xs) = setAdd (insertUniq l a) xs := rfl

theorem mem_setAdd_of_mem {l : List String} {y : String} (xs : List String) (h : y ∈ l) :
    y ∈ setAdd l xs := by
  induction xs generalizing l with
  | nil => exact h
  | cons a as ih => exact ih (mem_insertUniq_of_mem a h)

theorem mem_setAdd_of_mem_arg {xs : List String} {y : String} (l : List String) (h : y ∈ xs) :
    y ∈ setAdd l xs := by
  induction xs generalizing l with
  | nil => cases h
  | cons a as ih =>
    rcases List.mem_cons.mp h with rfl | h'
    · exact mem_setAdd_of_mem as (mem_insertUniq_self l y)
    · exact ih _ h'

theorem mem_setAdd_iff {xs l : List String} {y : String} :
    y ∈ setAdd l xs ↔ y ∈ l ∨ y ∈ xs := by
  induction xs generalizing l with
  | nil => simp [setAdd]
  | cons a as ih =>
    rw [setAdd_cons, ih, mem_insertUniq_iff]
    simp [List.mem_cons]
    tauto

theorem setAdd_eq_of_subset {l xs : List String} (h : ∀ x ∈ xs, x ∈ l) :
    setAdd l xs = l := by
  induction xs with
  | nil => rfl
  | cons a as ih =>
    rw [setAdd_cons, insertUniq_eq_of_mem (h a (List.mem_cons_self a as))]
    exact ih fun x hx => h x (List.mem_cons_of_mem a hx)

theorem nodup_insertUniq {l : List String} (h : l.Nodup) (x : String) :
    (insertUniq l x).Nodup := by
  unfold insertUniq
  split
  · exact h
  · rename_i hx
    exact h.append (List.nodup_singleton x) fun a ha hax => hx ((List.mem_singleton.mp hax) ▸ ha)

theorem nodup_setAdd {l : List String} (h : l.Nodup) (xs : List String) :
    (setAdd l xs).Nodup := by
  induction xs generalizing l with
  | nil => exact h
  | cons a as ih => exact ih (nodup_insertUniq h a)

theorem nodup_dedupFirst (xs : List String) : (dedupFirst xs).Nodup :=
  nodup_setAdd List.nodup_nil xs

theorem setAdd_eq_append {xs : List String} :
    ∀ {l : List String}, xs.Nodup → (∀ x ∈ xs, x ∉ l) → setAdd l xs = l ++ xs := by
  induction xs with
  | nil => intro l _ _; simp [setAdd]
  | cons a as ih =>
    intro l hx hd
    have ha : a ∉ l := hd a (List.mem_cons_self a as)
    rw [setAdd_cons, show insertUniq l a = l ++ [a] from by simp [insertUniq, ha]]
    have h2 : ∀ x ∈ as, x ∉ l ++ [a] := by
      intro x hxas
      simp only [List.mem_append, List.mem_singleton]
      rintro (hl | rfl)
      · exact hd x (List.mem_cons_of_mem a hxas) hl
      · exact (List.nodup_cons.mp hx).1 hxas
    rw [ih (List.nodup_cons.mp hx).2 h2]
    simp

theorem dedupFirst_eq_self {xs : List String} (h : xs.Nodup) : dedupFirst xs = xs := by
  have := setAdd_eq_append (l := []) h (by simp)
  simpa [dedupFirst] using this

theorem setAdd_append (l xs ys : List String) :
    setAdd l (xs ++ ys) = setAdd (setAdd l xs) ys := by
  simp [setAdd, List.foldl_append]

theorem typeKey_mergeInto (t : MergedType) (src : String) (item : SourceItem) :
    typeKey (mergeInto t src item) = typeKey t := rfl

theorem keys_mergeItem (acc : List MergedType) (src : String) (item : SourceItem) :
    (mergeItem acc src item).map typeKey = insertUniq (acc.map typeKey) (itemKey item) := by
  induction acc with
  | nil => simp [mergeItem, insertUniq, typeKey, itemKey]
  | cons t ts ih =>
    by_cases h : lowerStr t.name = lowerStr item.name
    · have hb : (lowerStr t.name == lowerStr item.name) = true := beq_iff_eq.mpr h
      have hkey : itemKey item = typeKey t := by
        simp only [typeKey, itemKey]
        exact h.symm
      simp only [mergeItem, hb, if_true, List.map_cons, typeKey_mergeInto]
      rw [insertUniq_eq_of_mem (by rw [hkey]; exact List.mem_cons_self _ _)]
    · have hb : (lowerStr t.name == lowerStr item.name) = false := by
        simp [h]
      have hne : itemKey item ≠ typeKey t := by
        simp only [typeKey, itemKey]
        exact fun e => h e.symm
      simp only [mergeItem, hb]
      rw [if_neg (by simp)]
      simp only [List.map_cons, ih]
      rw [insertUniq_cons_of_ne hne]

theorem keys_foldl_items (items : List SourceItem) (src : String) :
    ∀ acc : List MergedType,
      ((items.foldl (fun a it => mergeItem a src it) acc).map typeKey =
        setAdd (acc.map typeKey) (items.map itemKey)) := by
  induction items with
  | nil => intro acc; rfl
  | cons i is ih =>
    intro acc
    simp only [List.foldl_cons, List.map_cons, setAdd_cons]
    rw [ih, keys_mergeItem]

theorem keys_mergeSource (acc : List MergedType) (s : TypesSource) :
    (mergeSource acc s).map typeKey = setAdd (acc.map typeKey) (s.data.map itemKey) :=
  keys_foldl_items s.data s.source acc

theorem keys_mergeAllTypes (sources : List TypesSource) :
    (mergeAllTypes sources).map typeKey =
      setAdd [] ((sources.map fun s => s.data.map itemKey).flatten) := by
  suffices h : ∀ (ss : List TypesSource) (acc : List MergedType),
      (ss.foldl mergeSource acc).map typeKey =
        setAdd (acc.map typeKey) ((ss.map fun s => s.data.map itemKey).flatten) by
    exact h sources []
  intro ss
  induction ss with
  | nil => intro acc; simp [setAdd]
  | cons s ss ih =>
    intro acc
    simp only [List.foldl_cons, List.map_cons, List.flatten_cons]
    rw [ih, keys_mergeSource, setAdd_append]

/-- A generic loop invariant for left folds. -/
theorem foldl_inv {α β : Type} {P : α → Prop} {Q : β → Prop} (f : α → β → α)
    (hstep : ∀ a b, P a → Q b → P (f a b)) :
    ∀ (l : List β) (a : α), P a → (∀ b ∈ l, Q b) → P (l.foldl f a) := by
  intro l
  induction l with
  | nil => intro a ha _; exact ha
  | cons b bs ih =>
    intro a ha hq
    exact ih _ (hstep a b ha (hq b (List.mem_cons_self b bs)))
      fun x hx => hq x (List.mem_cons_of_mem b hx)

theorem mergeItem_nodup_lists {acc : List MergedType} {src : String} {item : SourceItem}
    (hacc : ∀ t ∈ acc, t.benefits.Nodup ∧ t.suitable_for.Nodup)
    (hb : item.benefits.Nodup) (hs : item.suitable_for.Nodup) :
    ∀ t ∈ mergeItem acc src item, t.benefits.Nodup ∧ t.suitable_for.Nodup := by
  induction acc with
  | nil =>
    intro t ht
    simp only [mergeItem, List.mem_singleton] at ht
    subst ht
    exact ⟨hb, hs⟩
  | cons u us ih =>
    intro t ht
    simp only [mergeItem] at ht
    split at ht
    · rcases List.mem_cons.mp ht with rfl | h
      · exact ⟨nodup_setAdd (nodup_dedupFirst _) _, nodup_setAdd (nodup_dedupFirst _) _⟩
      · exact hacc t (List.mem_cons_of_mem u h)
    · rcases List.mem_cons.mp ht with rfl | h
      · exact hacc t (List.mem_cons_self _ _)
      · exact ih (fun v hv => hacc v (List.mem_cons_of_mem u hv)) t h

/-- C1: the claim predicts that merging an incoming record whose source is
already present leaves the attribution string unchanged at "A"; the code
instead appends again, producing "A, A". -/
theorem c1_source_reappended :
    (mergeItem [c1Existing] "A" c1Item).map MergedType.source = ["A, A"] ∧
      ("A, A" : String) ≠ "A" := by decide

/-- C1 (amended): on a name match the incoming source string is appended to
the attribution string unconditionally (joined with a comma and space when
both sides are nonempty), whether or not it is already present. -/
theorem c1_source_always_appended (existing : MergedType) (src : String) (item : SourceItem)
    (hmatch : lowerStr existing.name = lowerStr item.name)
    (h1 : existing.source ≠ "") (h2 : src ≠ "") :
    (mergeInto existing src item).source = existing.source ++ ", " ++ src ∧
      (mergeItem [existing] src item).map MergedType.source =
        [existing.source ++ ", " ++ src] := by
  have hj : joinSources existing.source src = existing.source ++ ", " ++ src := by
    simp [joinSources, h1, h2]
  have hb : (lowerStr existing.name == lowerStr item.name) = true := beq_iff_eq.mpr hmatch
  constructor
  · simp [mergeInto, hj]
  · simp [mergeItem, hb, mergeInto, hj]

/-- Witness for the amended C1 at a concrete input whose incoming source is
already present in the attribution string. -/
theorem c1_source_always_appended_witness :
    (mergeInto c1Existing "A" c1Item).source = "A" ++ ", " ++ "A" ∧
      (mergeItem [c1Existing] "A" c1Item).map MergedType.source = ["A" ++ ", " ++ "A"] :=
  c1_source_always_appended c1Existing "A" c1Item (by decide) (by decide) (by decide)

theorem mergeInto_core_stable (t : MergedType) (src src' : String) (item : SourceItem) :
    coreFields (mergeInto (mergeInto t src item) src' item) =
      coreFields (mergeInto t src item) := by
  have hdesc : (mergeInto (mergeInto t src item) src' item).description =
      (mergeInto t src item).description := by
    by_cases hc1 : item.description ≠ "" ∧ t.description.length < item.description.length
    · simp only [mergeInto, if_pos hc1, ite_self]
    · simp only [mergeInto, if_neg hc1]
  have hben : (mergeInto (mergeInto t src item) src' item).benefits =
      (mergeInto t src item).benefits := by
    simp only [mergeInto]
    rw [dedupFirst_eq_self (nodup_setAdd (nodup_dedupFirst _) _)]
    exact setAdd_eq_of_subset fun x hx => mem_setAdd_of_mem_arg _ hx
  have hsuit : (mergeInto (mergeInto t src item) src' item).suitable_for =
      (mergeInto t src item).suitable_for := by
    simp only [mergeInto]
    rw [dedupFirst_eq_self (nodup_setAdd (nodup_dedupFirst _) _)]
    exact setAdd_eq_of_subset fun x hx => mem_setAdd_of_mem_arg _ hx
  simp only [coreFields, Prod.mk.injEq]
  exact ⟨rfl, hdesc, hben, hsuit⟩

/-- C2: merging the same record twice is not the same as merging it once:
the source attribution string becomes "A, A" instead of "A". -/
theorem c2_not_idempotent :
    mergeItem (mergeItem [] "A" c2Item) "A" c2Item ≠ mergeItem [] "A" c2Item := by decide

/-- C2 (amended): merging the same SourceRecord twice agrees with merging it
once on name, description, benefits and suitable_for (the own arrays of the
incoming record must be duplicate-free, since a first insertion copies them
verbatim while a re-merge deduplicates them); only the source attribution
differs, as the second merge appends the source name again. -/
theorem c2_idempotent_except_source (acc : List MergedType) (src : String) (item : SourceItem)
    (hb : item.benefits.Nodup) (hs : item.suitable_for.Nodup) :
    (mergeItem (mergeItem acc src item) src item).map coreFields =
      (mergeItem acc src item).map coreFields := by
  induction acc with
  | nil =>
    have hbq : (lowerStr item.name == lowerStr item.name) = true := beq_self_eq_true _
    simp only [mergeItem, hbq, if_true, List.map_cons, List.map_nil]
    congr 1
    simp only [coreFields, mergeInto, Prod.mk.injEq, true_and]
    refine ⟨ite_self _, ?_, ?_⟩
    · rw [dedupFirst_eq_self hb]
      exact setAdd_eq_of_subset fun x hx => hx
    · rw [dedupFirst_eq_self hs]
      exact setAdd_eq_of_subset fun x hx => hx
  | cons u us ih =>
    by_cases h : lowerStr u.name = lowerStr item.name
    · have hbq : (lowerStr u.name == lowerStr item.name) = true := beq_iff_eq.mpr h
      have hbq' : (lowerStr (mergeInto u src item).name == lowerStr item.name) = true := by
        simp only [mergeInto]
        exact hbq
      simp only [mergeItem, hbq, if_true, hbq', List.map_cons]
      rw [mergeInto_core_stable]
    · have hbq : (lowerStr u.name == lowerStr item.name) = false := by simp [h]
      simp only [mergeItem, hbq]
      rw [if_neg (by simp), if_neg (by simp)]
      simp only [List.map_cons]
      rw [ih]

/-- Witness for the amended C2 at a concrete duplicate-free record. -/
theorem c2_idempotent_except_source_witness :
    (mergeItem (mergeItem [] "A" c2Item) "A" c2Item).map coreFields =
      (mergeItem [] "A" c2Item).map coreFields :=
  c2_idempotent_except_source [] "A" c2Item (by decide) (by decide)

/-- C3: a record whose own benefits array holds duplicates and whose name
never recurs keeps those duplicates in the merged output. -/
theorem c3_duplicates_survive :
    mergeAllTypes [⟨"A", [⟨"X", "", ["b", "b"], []⟩]⟩] =
      [⟨"X", "", ["b", "b"], [], "A"⟩] ∧ ¬ (["b", "b"] : List String).Nodup := by
  refine ⟨by decide, by decide⟩

/-- C3 (amended): after any run (a) the merged records have pairwise distinct
lowercased names and a lowercased name occurs among them exactly when it
occurred in the input; (b) the benefits and suitable_for lists of every
merged record are duplicate-free provided the own arrays of every incoming
record are
duplicate-free (deduplication happens only when a name recurs and a merge is
performed). -/
theorem c3_one_record_per_key (sources : List TypesSource) :
    ((mergeAllTypes sources).map typeKey).Nodup ∧
    (∀ k, k ∈ (mergeAllTypes sources).map typeKey ↔
      ∃ s ∈ sources, ∃ i ∈ s.data, itemKey i = k) ∧
    ((∀ s ∈ sources, ∀ i ∈ s.data, i.benefits.Nodup ∧ i.suitable_for.Nodup) →
      ∀ t ∈ mergeAllTypes sources, t.benefits.Nodup ∧ t.suitable_for.Nodup) := by
  refine ⟨?_, ?_, ?_⟩
  · rw [keys_mergeAllTypes]
    exact nodup_setAdd List.nodup_nil _
  · intro k
    rw [keys_mergeAllTypes, mem_setAdd_iff]
    simp only [List.not_mem_nil, false_or, List.mem_flatten, List.mem_map]
    constructor
    · rintro ⟨l, ⟨s, hsmem, rfl⟩, hk⟩
      rcases List.mem_map.mp hk with ⟨i, him, hik⟩
      exact ⟨s, hsmem, i, him, hik⟩
    · rintro ⟨s, hsmem, i, him, hik⟩
      exact ⟨List.map itemKey s.data, ⟨s, hsmem, rfl⟩, List.mem_map.mpr ⟨i, him, hik⟩⟩
  · intro hin
    refine foldl_inv (P := fun acc => ∀ t ∈ acc, t.benefits.Nodup ∧ t.suitable_for.Nodup)
      (Q := fun s : TypesSource => ∀ i ∈ s.data, i.benefits.Nodup ∧ i.suitable_for.Nodup)
      mergeSource ?_ sources [] (by intro t ht; exact absurd ht (List.not_mem_nil t)) hin
    intro acc s hacc hq
    show ∀ t ∈ s.data.foldl (fun a it => mergeItem a s.source it) acc,
      t.benefits.Nodup ∧ t.suitable_for.Nodup
    exact foldl_inv (P := fun a => ∀ t ∈ a, t.benefits.Nodup ∧ t.suitable_for.Nodup)
      (Q := fun i : SourceItem => i.benefits.Nodup ∧ i.suitable_for.Nodup)
      (fun a it => mergeItem a s.source it)
      (fun a i ha hi => mergeItem_nodup_lists ha hi.1 hi.2) s.data acc hacc hq

/-- Witness for the amended C3 on a concrete run with a recurring name. -/
theorem c3_one_record_per_key_witness :
    ((mergeAllTypes [⟨"A", [⟨"X", "d", ["b"], []⟩, ⟨"x", "dd", ["c"], []⟩]⟩]).map
      typeKey).Nodup ∧
    (∀ t ∈ mergeAllTypes [⟨"A", [⟨"X", "d", ["b"], []⟩, ⟨"x", "dd", ["c"], []⟩]⟩],
      t.benefits.Nodup ∧ t.suitable_for.Nodup) :=
  ⟨(c3_one_record_per_key [⟨"A", [⟨"X", "d", ["b"], []⟩, ⟨"x", "dd", ["c"], []⟩]⟩]).1,
   (c3_one_record_per_key [⟨"A", [⟨"X", "d", ["b"], []⟩, ⟨"x", "dd", ["c"], []⟩]⟩]).2.2
     (by decide)⟩

theorem str_ne_empty_of_len_pos {s : String} (h : 0 < s.length) : s ≠ "" := by
  intro he
  subst he
  exact Nat.lt_irrefl 0 h

/-- The truthiness guard on the incoming description is redundant for the
longest-wins rule: an empty incoming string can never be strictly longer. -/
theorem mergeInto_description (existing : MergedType) (src : String) (item : SourceItem) :
    (mergeInto existing src item).description =
      if existing.description.length < item.description.length
      then item.description else existing.description := by
  by_cases hlt : existing.description.length < item.description.length
  · have hne : item.description ≠ "" :=
      str_ne_empty_of_len_pos (Nat.lt_of_le_of_lt (Nat.zero_le _) hlt)
    simp only [mergeInto]
    rw [if_pos ⟨hne, hlt⟩, if_pos hlt]
  · simp only [mergeInto]
    rw [if_neg fun hc => hlt hc.2, if_neg hlt]

theorem merge_pair_description (a b : SourceItem) (src : String)
    (hk : lowerStr a.name = lowerStr b.name) :
    (mergeAllTypes [⟨src, [a, b]⟩]).map MergedType.description =
      [if a.description.length < b.description.length
       then b.description else a.description] := by
  have hbq : (lowerStr a.name == lowerStr b.name) = true := beq_iff_eq.mpr hk
  show (mergeItem (mergeItem [] src a) src b).map MergedType.description = _
  simp only [mergeItem, hbq, if_true, List.map_cons, List.map_nil]
  rw [show (mergeInto
    { name := a.name, description := a.description, benefits := a.benefits,
      suitable_for := a.suitable_for, source := src } src b).description =
      if a.description.length < b.description.length then b.description
      else a.description from mergeInto_description _ src b]

/-- C4: when two records with the same lowercased name are merged, the
strictly longer description wins and ties keep the existing (first-supplied)
description; when the lengths differ the surviving description does not
depend on the merge order. -/
theorem c4_description_longest_wins :
    (∀ (existing : MergedType) (src : String) (item : SourceItem),
       (mergeInto existing src item).description =
         if existing.description.length < item.description.length
         then item.description else existing.description) ∧
    (∀ (a b : SourceItem) (src : String), lowerStr a.name = lowerStr b.name →
       (mergeAllTypes [⟨src, [a, b]⟩]).map MergedType.description =
         [if a.description.length < b.description.length
          then b.description else a.description]) ∧
    (∀ (a b : SourceItem) (s s' : String), lowerStr a.name = lowerStr b.name →
       a.description.length ≠ b.description.length →
       (mergeAllTypes [⟨s, [a, b]⟩]).map MergedType.description =
         (mergeAllTypes [⟨s', [b, a]⟩]).map MergedType.description) := by
  refine ⟨mergeInto_description, merge_pair_description, ?_⟩
  intro a b s s' hk hne
  rw [merge_pair_description a b s hk, merge_pair_description b a s' hk.symm]
  rcases Nat.lt_or_ge a.description.length b.description.length with h | h
  · rw [if_pos h, if_neg (Nat.not_lt.mpr (Nat.le_of_lt h))]
  · have hlt : b.description.length < a.description.length :=
      Nat.lt_of_le_of_ne h fun e => hne e.symm
    rw [if_neg (Nat.not_lt.mpr h), if_pos hlt]

/-- Witness for C4 on the two Cobra records from the specification. -/
theorem c4_description_longest_wins_witness :
    (mergeAllTypes [⟨"S", [⟨"Cobra", "Short one.", [], []⟩,
        ⟨"cobra", "A longer more descriptive sentence.", [], []⟩]⟩]).map
      MergedType.description = ["A longer more descriptive sentence."] ∧
    (mergeAllTypes [⟨"S", [⟨"Cobra", "Short one.", [], []⟩,
        ⟨"cobra", "A longer more descriptive sentence.", [], []⟩]⟩]).map
      MergedType.description =
      (mergeAllTypes [⟨"T", [⟨"cobra", "A longer more descriptive sentence.", [], []⟩,
        ⟨"Cobra", "Short one.", [], []⟩]⟩]).map MergedType.description := by
  constructor
  · rw [c4_description_longest_wins.2.1 ⟨"Cobra", "Short one.", [], []⟩
      ⟨"cobra", "A longer more descriptive sentence.", [], []⟩ "S" (by decide)]
    decide
  · exact c4_description_longest_wins.2.2 ⟨"Cobra", "Short one.", [], []⟩
      ⟨"cobra", "A longer more descriptive sentence.", [], []⟩ "S" "T" (by decide) (by decide)

theorem padLoop_closed :
    ∀ (n : Nat) (table : List String) (minCount : Nat) (l : List String),
      minCount - l.length = n → minCount ≤ table.length →
      padLoop table minCount l = l ++ (table.drop l.length).take (minCount - l.length) := by
  intro n
  induction n with
  | zero =>
    intro table minCount l h0 htab
    rw [padLoop, if_neg (by omega)]
    simp [h0]
  | succ n ih =>
    intro table minCount l hs htab
    have hlt : l.length < minCount := by omega
    have hk : l.length < table.length := by omega
    rw [padLoop, if_pos hlt,
      ih table minCount (l ++ [table.getD l.length ""])
        (by simp only [List.length_append, List.length_cons, List.length_nil]; omega) htab]
    rw [List.getD_eq_getElem table "" hk]
    rw [List.drop_eq_getElem_cons hk,
      show minCount - l.length = (minCount - (l.length + 1)) + 1 from by omega,
      List.take_succ_cons]
    simp [List.length_append]

theorem posePadLoop_closed :
    ∀ (n : Nat) (ph : String × String) (l : List (String × String)),
      3 - l.length = n →
      posePadLoop ph l = l ++ List.replicate (3 - l.length) ph := by
  intro n
  induction n with
  | zero =>
    intro ph l h0
    rw [posePadLoop, if_neg (by omega)]
    simp [h0]
  | succ n ih =>
    intro ph l hs
    have hlt : l.length < 3 := by omega
    rw [posePadLoop, if_pos hlt,
      ih ph (l ++ [ph])
        (by simp only [List.length_append, List.length_cons, List.length_nil]; omega)]
    rw [show (3 : Nat) - l.length = (3 - (l.length + 1)) + 1 from by omega,
      List.replicate_succ]
    simp [List.length_append]

theorem padded_section_spec (table real : List String) (m : Nat) (htab : table.length = m) :
    padLoop table m (real.take m) =
      real.take m ++ (table.drop (real.take m).length).take (m - (real.take m).length) ∧
    (padLoop table m (real.take m)).length = m ∧
    (m ≤ real.length → padLoop table m (real.take m) = real.take m) := by
  have hlen : (real.take m).length ≤ m := by
    simp [List.length_take]
  have h1 := padLoop_closed (m - (real.take m).length) table m (real.take m) rfl (by omega)
  refine ⟨h1, ?_, ?_⟩
  · rw [h1]
    simp only [List.length_append, List.length_take, List.length_drop, htab]
    omega
  · intro hge
    rw [h1]
    have hfull : (real.take m).length = m := by
      simp only [List.length_take]
      omega
    simp [hfull]

/-- C5: every rendered category section consists of the first `minCount` real
records in insertion order, followed (only when fewer than `minCount` real
records exist) by entries of the static placeholder table of that category
in table order; the section always has exactly `minCount` items (4 for
benefits, 3 for tips and poses), and with `minCount` or more real records no
placeholder appears. -/
theorem c5_placeholder_backfill (ss : List BenefitsSource) (ts : List TipsSource)
    (ps : List (String × String)) (cb ct cp : String)
    (hb : cb = "physical" ∨ cb = "mental" ∨ cb = "lifestyle")
    (ht : ct = "beginners" ∨ ct = "mindful" ∨ ct = "props") :
    (benefitsItems ss cb =
        (benefitBucket (collectBenefits ss) cb).take 4 ++
          ((benefitPlaceholders cb).drop
            ((benefitBucket (collectBenefits ss) cb).take 4).length).take
            (4 - ((benefitBucket (collectBenefits ss) cb).take 4).length) ∧
      (benefitsItems ss cb).length = 4 ∧
      (4 ≤ (benefitBucket (collectBenefits ss) cb).length →
        benefitsItems ss cb = (benefitBucket (collectBenefits ss) cb).take 4)) ∧
    (tipsItems ts ct =
        (tipBucket (collectTips ts) ct).take 3 ++
          ((tipPlaceholders ct).drop ((tipBucket (collectTips ts) ct).take 3).length).take
            (3 - ((tipBucket (collectTips ts) ct).take 3).length) ∧
      (tipsItems ts ct).length = 3 ∧
      (3 ≤ (tipBucket (collectTips ts) ct).length →
        tipsItems ts ct = (tipBucket (collectTips ts) ct).take 3)) ∧
    (poseItems ps cp =
        ps.take 3 ++ List.replicate (3 - (ps.take 3).length) (posePlaceholder cp) ∧
      (poseItems ps cp).length = 3 ∧
      (3 ≤ ps.length → poseItems ps cp = ps.take 3)) := by
  refine ⟨?_, ?_, ?_⟩
  · have htab : (benefitPlaceholders cb).length = 4 := by
      rcases hb with rfl | rfl | rfl <;> rfl
    exact padded_section_spec (benefitPlaceholders cb) (benefitBucket (collectBenefits ss) cb)
      4 htab
  · have htab : (tipPlaceholders ct).length = 3 := by
      rcases ht with rfl | rfl | rfl <;> rfl
    exact padded_section_spec (tipPlaceholders ct) (tipBucket (collectTips ts) ct) 3 htab
  · have h1 := posePadLoop_closed (3 - (ps.take 3).length) (posePlaceholder cp) (ps.take 3) rfl
    refine ⟨h1, ?_, ?_⟩
    · show (posePadLoop (posePlaceholder cp) (ps.take 3)).length = 3
      rw [h1]
      simp only [List.length_append, List.length_take, List.length_replicate]
      omega
    · intro hge
      show posePadLoop (posePlaceholder cp) (ps.take 3) = ps.take 3
      rw [h1]
      have hfull : (ps.take 3).length = 3 := by
        simp only [List.length_take]
        omega
      simp [hfull]

/-- Witness for C5: two real physical benefits are padded with the last two
table placeholders, five tips are cut to the first three. -/
theorem c5_placeholder_backfill_witness :
    (benefitsItems [⟨"W", ⟨["p one.", "p two."], [], []⟩⟩] "physical").length = 4 ∧
    (3 ≤ (tipBucket (collectTips [⟨"W", ⟨["t1", "t2", "t3", "t4", "t5"], [], []⟩⟩])
        "beginners").length →
      tipsItems [⟨"W", ⟨["t1", "t2", "t3", "t4", "t5"], [], []⟩⟩] "beginners" =
        (tipBucket (collectTips [⟨"W", ⟨["t1", "t2", "t3", "t4", "t5"], [], []⟩⟩])
          "beginners").take 3) :=
  ⟨(c5_placeholder_backfill [⟨"W", ⟨["p one.", "p two."], [], []⟩⟩]
      [⟨"W", ⟨["t1", "t2", "t3", "t4", "t5"], [], []⟩⟩] [] "physical" "beginners" "standing"
      (Or.inl rfl) (Or.inl rfl)).1.2.1,
   (c5_placeholder_backfill [⟨"W", ⟨["p one.", "p two."], [], []⟩⟩]
      [⟨"W", ⟨["t1", "t2", "t3", "t4", "t5"], [], []⟩⟩] [] "physical" "beginners" "standing"
      (Or.inl rfl) (Or.inl rfl)).2.1.2.2⟩

/-- C6: the categorizer rules are tried in the fixed order standing,
seated, backbends, inversions over the name and description of the pose; the
first matching rule determines the category and a pose matching no rule is
assigned "other". -/
theorem c6_first_matching_rule :
    poseRules.map Prod.fst = ["standing", "seated", "backbends", "inversions"] ∧
    (∀ title description : String,
      determinePoseCategory title description = firstMatchCategory title description ∧
      ((∀ r ∈ poseRules, r.2 title description = false) →
        determinePoseCategory title description = "other")) := by
  constructor
  · rfl
  · intro title description
    have heq : determinePoseCategory title description =
        firstMatchCategory title description := by
      cases h1 : matchesAny title standingTitleKeys || matchesAny description standingDescKeys <;>
        cases h2 : matchesAny title seatedTitleKeys || matchesAny description seatedDescKeys <;>
          cases h3 : matchesAny title backbendTitleKeys ||
              matchesAny description backbendDescKeys <;>
            cases h4 : matchesAny title inversionTitleKeys ||
                matchesAny description inversionDescKeys <;>
              simp [determinePoseCategory, firstMatchCategory, poseRules, List.find?,
                h1, h2, h3, h4]
    refine ⟨heq, ?_⟩
    intro hnone
    rw [heq]
    unfold firstMatchCategory
    rw [List.find?_eq_none.mpr fun r hr => by rw [hnone r hr]; exact Bool.false_ne_true]

/-- Witness for C6 at a pose matching no rule. -/
theorem c6_first_matching_rule_witness :
    determinePoseCategory "Plank Hold" "core work" =
      firstMatchCategory "Plank Hold" "core work" ∧
    determinePoseCategory "Plank Hold" "core work" = "other" :=
  ⟨(c6_first_matching_rule.2 "Plank Hold" "core work").1,
   (c6_first_matching_rule.2 "Plank Hold" "core work").2 (by decide)⟩

theorem collectBenefits_fold (ss : List BenefitsSource) :
    ∀ acc : BenefitsBuckets,
      ss.foldl
        (fun acc s =>
          { physical := setAdd acc.physical s.data.physical,
            mental := setAdd acc.mental s.data.mental,
            lifestyle := setAdd acc.lifestyle s.data.general }) acc =
      { physical := setAdd acc.physical ((ss.map fun s => s.data.physical).flatten),
        mental := setAdd acc.mental ((ss.map fun s => s.data.mental).flatten),
        lifestyle := setAdd acc.lifestyle ((ss.map fun s => s.data.general).flatten) } := by
  induction ss with
  | nil => intro acc; rfl
  | cons s ss ih =>
    intro acc
    simp only [List.foldl_cons, List.map_cons, List.flatten_cons, ih, setAdd_append]

theorem collectTips_fold (ts : List TipsSource) :
    ∀ acc : TipsBuckets,
      ts.foldl
        (fun acc s =>
          { beginners := setAdd acc.beginners s.data.beginners,
            mindful := setAdd acc.mindful s.data.practice,
            props := setAdd acc.props s.data.props }) acc =
      { beginners := setAdd acc.beginners ((ts.map fun s => s.data.beginners).flatten),
        mindful := setAdd acc.mindful ((ts.map fun s => s.data.practice).flatten),
        props := setAdd acc.props ((ts.map fun s => s.data.props).flatten) } := by
  induction ts with
  | nil => intro acc; rfl
  | cons s ts ih =>
    intro acc
    simp only [List.foldl_cons, List.map_cons, List.flatten_cons, ih, setAdd_append]

/-- C7: benefit strings arriving under the `general` key make up exactly the
bucket rendered under the `lifestyle` label, tip strings under `practice`
make up exactly the `mindful` bucket, and the other keys feed the
identically-named buckets; the rendered sections pair each bucket with its
output label. -/
theorem c7_category_relabeling (ss : List BenefitsSource) (ts : List TipsSource) :
    (collectBenefits ss).lifestyle = dedupFirst ((ss.map fun s => s.data.general).flatten) ∧
    (collectBenefits ss).physical = dedupFirst ((ss.map fun s => s.data.physical).flatten) ∧
    (collectBenefits ss).mental = dedupFirst ((ss.map fun s => s.data.mental).flatten) ∧
    (collectTips ts).mindful = dedupFirst ((ts.map fun s => s.data.practice).flatten) ∧
    (collectTips ts).beginners = dedupFirst ((ts.map fun s => s.data.beginners).flatten) ∧
    (collectTips ts).props = dedupFirst ((ts.map fun s => s.data.props).flatten) ∧
    ("lifestyle", benefitsItems ss "lifestyle") ∈ benefitsSections ss ∧
    ("mindful", tipsItems ts "mindful") ∈ tipsSections ts := by
  have hb := collectBenefits_fold ss { physical := [], mental := [], lifestyle := [] }
  have ht := collectTips_fold ts { beginners := [], mindful := [], props := [] }
  refine ⟨?_, ?_, ?_, ?_, ?_, ?_, ?_, ?_⟩
  · exact congrArg BenefitsBuckets.lifestyle hb
  · exact congrArg BenefitsBuckets.physical hb
  · exact congrArg BenefitsBuckets.mental hb
  · exact congrArg TipsBuckets.mindful ht
  · exact congrArg TipsBuckets.beginners ht
  · exact congrArg TipsBuckets.props ht
  · simp [benefitsSections]
  · simp [tipsSections]

/-- C8: requesting generation for a section name outside the configured set
yields the unknown-section error for that call alone; in the per-section
loop the rogue entry produces no output while the result of every other
entry is
exactly what it would be without it. -/
theorem c8_unknown_section (sd : ScrapedData) (sec : String) (h : sec ∉ sectionNames) :
    generateSectionContent sd sec = Except.error ("Unknown section: " ++ sec) ∧
    (∀ pre post : List String,
      updateRun sd (pre ++ sec :: post) =
        updateRun sd pre ++ (sec, none) :: updateRun sd post) := by
  simp only [sectionNames, List.mem_cons, List.not_mem_nil, or_false] at h
  push_neg at h
  obtain ⟨h1, h2, h3, h4⟩ := h
  constructor
  · simp [generateSectionContent, h1, h2, h3, h4]
  · intro pre post
    simp [updateRun, sectionHasData, h1, h2, h3, h4]

/-- Witness for C8: a bogus section fails on its own, and a run over
types, bogus, tips still generates the flanking sections. -/
theorem c8_unknown_section_witness :
    generateSectionContent ⟨[], [], [], []⟩ "bogus" =
      Except.error ("Unknown section: " ++ "bogus") ∧
    updateRun ⟨[], [], [], []⟩ (["types"] ++ "bogus" :: ["tips"]) =
      updateRun ⟨[], [], [], []⟩ ["types"] ++ ("bogus", none) ::
        updateRun ⟨[], [], [], []⟩ ["tips"] :=
  ⟨(c8_unknown_section ⟨[], [], [], []⟩ "bogus" (by decide)).1,
   (c8_unknown_section ⟨[], [], [], []⟩ "bogus" (by decide)).2 ["types"] ["tips"]⟩

theorem replaceChar_append (t : Char) (rep a b : List Char) :
    replaceChar t rep (a ++ b) = replaceChar t rep a ++ replaceChar t rep b := by
  induction a with
  | nil => rfl
  | cons c cs ih => simp [replaceChar, ih]

theorem escapeHtmlChars_append (a b : List Char) :
    escapeHtmlChars (a ++ b) = escapeHtmlChars a ++ escapeHtmlChars b := by
  simp [escapeHtmlChars, replaceChar_append]

theorem escapeHtmlChars_single (c : Char) : escapeHtmlChars [c] = escChar c := by
  by_cases h1 : c = '&'
  · subst h1; decide
  by_cases h2 : c = '<'
  · subst h2; decide
  by_cases h3 : c = '>'
  · subst h3; decide
  by_cases h4 : c = '"'
  · subst h4; decide
  by_cases h5 : c = Char.ofNat 39
  · subst h5; decide
  simp [escapeHtmlChars, replaceChar, escChar, h1, h2, h3, h4, h5]

theorem escapeHtmlChars_flat (l : List Char) : escapeHtmlChars l = l.flatMap escChar := by
  induction l with
  | nil => rfl
  | cons c cs ih =>
    have : escapeHtmlChars (c :: cs) = escapeHtmlChars ([c] ++ cs) := rfl
    rw [this, escapeHtmlChars_append, escapeHtmlChars_single, ih, List.flatMap_cons]

/-- C9: escaping the body containing the five special characters yields the
expected entity sequence, and one application of the chained replaces is
exactly the single-pass character map, so the ampersands introduced for the
later characters are never re-escaped within that application. -/
theorem c9_escape_html :
    escapeHtml ("<script>&\"" ++ (Char.ofNat 39).toString) =
      "&lt;script&gt;&amp;&quot;&#039;" ∧
    ∀ s : String, (escapeHtml s).data = s.data.flatMap escChar := by
  constructor
  · decide
  · intro s
    exact escapeHtmlChars_flat s.data

theorem name_renderTypeBlock (n : String) (t : MergedType) :
    (renderTypeBlock n t).name = n := rfl

/-- C10: the rendered types output is exactly one block per standard name,
in the fixed order Vinyasa, Hatha, Yin, Power, Restorative; a block uses the
merged record found for its name (whose lowercased name then equals the
key of the block) or the built-in default record when none matches; a
merged record
whose lowercased name is not one of the five standard names is used by no
block; and a block depends only on the first elements of the benefits and
suitable_for lists of the chosen record. -/
theorem c10_types_render (sources : List TypesSource) :
    ((renderTypes sources).map TypeBlock.name = standardTypes) ∧
    (∀ n, ((mergeAllTypes sources).find? (typeKeyMatch n) = none →
        selectType sources n = defaultTypeRecord n) ∧
      (∀ t, (mergeAllTypes sources).find? (typeKeyMatch n) = some t →
        selectType sources n = t ∧ lowerStr t.name = lowerStr n)) ∧
    (∀ t ∈ mergeAllTypes sources,
      (∀ m ∈ standardTypes, lowerStr t.name ≠ lowerStr m) →
      ∀ n ∈ standardTypes, selectType sources n ≠ t) ∧
    (∀ (n : String) (t : MergedType), renderTypeBlock n t =
      renderTypeBlock n
        { t with benefits := t.benefits.take 1, suitable_for := t.suitable_for.take 1 }) ∧
    (renderTypes sources =
      standardTypes.map fun n => renderTypeBlock n (selectType sources n)) := by
  refine ⟨?_, ?_, ?_, ?_, rfl⟩
  · rfl
  · intro n
    constructor
    · intro hf
      simp [selectType, hf]
    · intro t hf
      refine ⟨by simp [selectType, hf], ?_⟩
      have := List.find?_some hf
      exact beq_iff_eq.mp (by simpa [typeKeyMatch] using this)
  · intro t ht hne n hn heq
    unfold selectType at heq
    cases hf : (mergeAllTypes sources).find? (typeKeyMatch n) with
    | none =>
      rw [hf] at heq
      simp only [Option.getD_none] at heq
      have hname : t.name = n := congrArg MergedType.name heq.symm
      exact hne n hn (by rw [hname])
    | some u =>
      rw [hf] at heq
      simp only [Option.getD_some] at heq
      have := List.find?_some hf
      have hkey : lowerStr u.name = lowerStr n := beq_iff_eq.mp (by simpa [typeKeyMatch] using this)
      rw [heq] at hkey
      exact hne n hn hkey
  · intro n t
    cases hb : t.benefits <;> cases hs : t.suitable_for <;>
      simp [renderTypeBlock, hb, hs, List.take_succ_cons, List.take_zero]

/-- Witness for C10 at the empty input: all five default blocks. -/
theorem c10_types_render_witness :
    (renderTypes []).map TypeBlock.name = standardTypes ∧
    selectType [] "Hatha" = defaultTypeRecord "Hatha" :=
  ⟨(c10_types_render []).1, ((c10_types_render []).2.1 "Hatha").1 (by decide)⟩

end Yoga
